import Mathlib

/-!
Verification of `fprime_fpp_install.py` (fprime-community/fprime-fpp).

The file shallowly embeds the install script's logic:
* version discovery (`read_version_from_temp`, `setup_version`),
* version normalization (`get_package_version`, which matches the raw token
  against three regular expressions),
* artifact naming (`get_artifact_string`),
* the cache / download / git acquisition chain (`prepare_cache_dir`,
  `wget`, `github_release_download`, `install_fpp`, `install_fpp_via_git`),
* exit-time cleanup registration (`clean_at_exit`, `clean_install_fpp`).

I/O is made explicit: the ambient process state (environment variables,
file existence, download outcome, tool availability, subprocess exit codes)
is a record `Env`, and every operation returns its result together with the
list of external actions (`Event`) it performed, with `sys.exit(code)`
modelled as `Except.error` carrying the exit code and the printed diagnostic.

The file is organized as definitions first, then theorems.
-/

namespace FppInstall

/-! ## Definitions -/

/-! ### Character classes used by the regular expressions

`get_package_version` uses the patterns `(v\d+\.\d+\.\d+)`,
`([a-fA-F0-9]{8,40}+)` and `(v\d+\.\d+\.\d+)-(\d+)-g([a-fA-F0-9]{8,40}+)`,
each applied with `re.match` (anchored at the start, trailing text allowed),
and the first one also inside `^...$` (anchored at both ends; Python's `$`
also matches just before a single trailing newline). -/

/-- `[a-fA-F0-9]`: the character class of `hash_match_string`. -/
def isHexChar (c : Char) : Bool :=
  c.isDigit || ('a' ≤ c && c ≤ 'f') || ('A' ≤ c && c ≤ 'F')

/-- Greedy run of characters satisfying `p`: returns (run, remainder).
Models a greedy `X+`/`X*` regex atom; no backtracking is needed because in
every pattern of the script the character after a `\d+` or hex run cannot
itself belong to the repeated class (see the matchers below). -/
def munchWhile (p : Char → Bool) : List Char → List Char × List Char
  | [] => ([], [])
  | c :: cs =>
    if p c then
      let (run, rest) := munchWhile p cs
      (c :: run, rest)
    else ([], c :: cs)

/-- `\d+` (greedy). -/
def munchDigits (l : List Char) : List Char × List Char :=
  munchWhile Char.isDigit l

/-- `[a-fA-F0-9]+` (greedy). -/
def munchHex (l : List Char) : List Char × List Char :=
  munchWhile isHexChar l

/-- Matcher for `(v\d+\.\d+\.\d+)` applied at the start of the input
(`re.match`).  Returns `some (group1, remainder)` on success.  Greedy `\d+`
needs no backtracking: the character after each run must be `.` (or the
pattern fails), and `.` is not a digit. -/
def matchVersionPrefix (l : List Char) : Option (List Char × List Char) :=
  match l with
  | [] => none
  | c :: cs =>
    if c ≠ 'v' then none else
    let (d1, r1) := munchDigits cs
    if d1 = [] then none else
    match r1 with
    | [] => none
    | c1 :: r2 =>
      if c1 ≠ '.' then none else
      let (d2, r3) := munchDigits r2
      if d2 = [] then none else
      match r3 with
      | [] => none
      | c2 :: r4 =>
        if c2 ≠ '.' then none else
        let (d3, r5) := munchDigits r4
        if d3 = [] then none
        else some ('v' :: d1 ++ '.' :: d2 ++ '.' :: d3, r5)

/-- `re.match(fr"^{version_match_string}$", s)`: the version pattern must
cover the whole token; Python's `$` also accepts one trailing newline. -/
def matchesExactVersion (l : List Char) : Bool :=
  match matchVersionPrefix l with
  | none => false
  | some (_, rest) => decide (rest = [] ∨ rest = ['\n'])

/-- `hash_matcher.match(s)` succeeds iff the token starts with at least 8
hex characters (the quantifier `{8,40}+` is possessive: it takes up to 40
characters greedily and succeeds whenever at least 8 are available). -/
def hashPrefixMatches (l : List Char) : Bool :=
  decide (8 ≤ l.length) && (l.take 8).all isHexChar

/-- `full_version_matcher.match(s)` for
`(v\d+\.\d+\.\d+)-(\d+)-g([a-fA-F0-9]{8,40}+)`: returns the three groups.
Trailing text after the hash run is allowed (`re.match` is a prefix match);
the possessive `{8,40}+` keeps at most 40 hex characters. -/
def matchFullVersion (l : List Char) : Option (List Char × List Char × List Char) :=
  match matchVersionPrefix l with
  | none => none
  | some (g1, rest) =>
    match rest with
    | [] => none
    | c :: r1 =>
      if c ≠ '-' then none else
      let (g2, r2) := munchDigits r1
      if g2 = [] then none else
      match r2 with
      | [] => none
      | c1 :: r3 =>
        if c1 ≠ '-' then none else
        match r3 with
        | [] => none
        | c2 :: r4 =>
          if c2 ≠ 'g' then none else
          let (hx, _) := munchHex r4
          let g3 := hx.take 40
          if g3.length < 8 then none
          else some (g1, g2, g3)

/-- The f-string `f"{version}.dev{commits}+g{hash}"`. -/
def formatPackageVersion (version commits hash : String) : String :=
  version ++ ".dev" ++ commits ++ "+g" ++ hash

/-- `get_package_version(tools_version)`: package version from the tool
version.  Base settings are `version = "v0.0.0"`, `commits = "999"`,
`hash = "00000000"`; an exact `vX.Y.Z` token is returned unchanged; a token
starting with 8 hex characters keeps the base version/commits and uses
`tools_version[:8]` as the hash; a full `vX.Y.Z-N-gHASH` token uses its
three groups (hash truncated to 8); anything else keeps all base settings. -/
def get_package_version (tools_version : String) : String :=
  let cs := tools_version.data
  if matchesExactVersion cs then
    tools_version
  else if hashPrefixMatches cs then
    formatPackageVersion "v0.0.0" "999" (String.mk (cs.take 8))
  else
    match matchFullVersion cs with
    | some (g1, g2, g3) =>
      formatPackageVersion (String.mk g1) (String.mk g2) (String.mk (g3.take 8))
    | none => formatPackageVersion "v0.0.0" "999" "00000000"

/-- `true` iff the list is empty or its head does not satisfy `p`:
the condition under which a greedy `p`-run stops exactly at that list. -/
def headNot (p : Char → Bool) : List Char → Bool
  | [] => true
  | c :: _ => !p c

/-! ### Version discovery (`read_version_from_temp`, `setup_version`) -/

/-- The keys of interest in the transient version file
`fprime_versions.json`: `FPP_TOOLS_VERSION` and `setup_ppid`.  A `none`
field stands for an absent key (`KeyError` in the script). -/
structure VersionsJson where
  fppToolsVersion : Option String
  setupPpid : Option Int
deriving Repr, DecidableEq

/-- A fatal `sys.exit(code)` with the diagnostic printed just before it. -/
structure Fatal where
  code : Int
  message : String
deriving Repr, DecidableEq

/-- `read_version_from_temp(file, fallback, safe=False)`.  `file = none`
stands for the `OSError` case (the transient file does not exist); a missing
key gives the `KeyError` case; otherwise the recorded version is accepted
when `safe` is set or the recorded `setup_ppid` equals the parent process
id, and the fallback is returned on a mismatch. -/
def read_version_from_temp (file : Option VersionsJson) (fallback : Option String)
    (safe : Bool) (ppid : Int) : Option String :=
  match file with
  | none => fallback
  | some versions =>
    match versions.fppToolsVersion with
    | none => fallback
    | some version =>
      if safe then some version
      else
        match versions.setupPpid with
        | none => fallback
        | some recorded => if recorded = ppid then some version else fallback

/-- The diagnostic printed by `setup_version` before `sys.exit(1)` (the
f-string renders with no space before "environment"). -/
def setupVersionErrorMsg : String :=
  "[ERROR] 'sdist' builds and local installations, must set FPP_TOOLS_VERSIONenvironment variable"

/-- `setup_version()`: the environment variable `FPP_TOOLS_VERSION` is read
first, then the transient file may override it (checking the ppid, with
`safe=False`); if no version was found the process exits with status 1. -/
def setup_version (envVar : Option String) (tempFile : Option VersionsJson)
    (ppid : Int) : Except Fatal String :=
  let version := envVar
  let version := read_version_from_temp tempFile version false ppid
  match version with
  | none => Except.error ⟨1, setupVersionErrorMsg⟩
  | some v => Except.ok v

/-! ### The host platform and artifact naming -/

/-- The outputs of `platform.system()` and `platform.machine()` on the
host. -/
structure Host where
  system : String
  machine : String
deriving Repr, DecidableEq

/-- `get_artifact_string(version)`: the f-string
`f"{FPP_ARTIFACT_PREFIX}-{platform.system()}-{platform.machine()}{FPP_COMPRESSION_EXT}"`
with the module constants `"native-fpp"` and `".tar.gz"`.  The `version`
parameter is accepted, as in the script, but never used. -/
def get_artifact_string (hst : Host) (_version : String) : String :=
  "native-fpp" ++ "-" ++ hst.system ++ "-" ++ hst.machine ++ ".tar.gz"

/-! ### The acquisition chain

External actions are recorded as events; the ambient process state is an
`Env` record.  `sys.exit` becomes `Except.error` with a `Fatal`. -/

/-- An external action performed by the installer: a network fetch
(`urllib.request.urlretrieve`), a tar extraction into a current directory,
or a subprocess invocation (`subprocess.run`). -/
inductive Event where
  | download (url : String)
  | extract (archive : String) (cwd : String)
  | runStep (step : List String)
deriving Repr, DecidableEq

/-- `urllib.error.HTTPError`, as far as the script observes it: the status
code and the reason phrase sent by the server. -/
structure HTTPErr where
  code : Nat
  reason : String
deriving Repr, DecidableEq

/-- Python's `str(error)` for an `HTTPError`:
`f"HTTP Error {code}: {reason}"`. -/
def HTTPErr.str (e : HTTPErr) : String :=
  "HTTP Error " ++ toString e.code ++ ": " ++ e.reason

/-- Substring occurrence test on character lists (Python's `in`). -/
def listContains (pat : List Char) : List Char → Bool
  | [] => pat.isEmpty
  | c :: cs => pat.isPrefixOf (c :: cs) || listContains pat cs

/-- `"404" in str(error)` — the script classifies fetch failures by this
substring test, not by the status code. -/
def contains404 (s : String) : Bool :=
  listContains "404".data s.data

/-- The ambient process state for one run of the installer.  Fields, in
order: the working directory (`WORKING_DIR`), the `FPP_DOWNLOAD_CACHE`
environment variable, the release host (`GITHUB_URL`, from
`FPP_TOOLS_REPO` or its default), the host platform, the resolved
`__FPP_TOOLS_VERSION__`, the initial file-existence predicate, the outcome
`urlretrieve` would have (`none` = success, `some e` = raised `HTTPError`),
`shutil.which` availability, the fresh temporary build directory, and the
return code `subprocess.run` yields for each step. -/
structure Env where
  workingDir : String
  cacheEnvVar : Option String
  githubUrl : String
  host : Host
  toolsVersion : String
  fs : String → Bool
  downloadOutcome : Option HTTPErr
  which : String → Bool
  buildDir : String
  stepExit : List String → Int

/-- `pathlib`'s `/` operator on POSIX paths. -/
def joinPath (dir name : String) : String := dir ++ "/" ++ name

/-- One step of Python's `str.replace` scan, fuelled for structural
recursion: leftmost, non-overlapping replacement of every occurrence. -/
def replaceAllFuel (pat repl : List Char) : Nat → List Char → List Char
  | _, [] => []
  | 0, s => s
  | fuel + 1, c :: cs =>
    if !pat.isEmpty && pat.isPrefixOf (c :: cs) then
      repl ++ replaceAllFuel pat repl fuel (cs.drop (pat.length - 1))
    else
      c :: replaceAllFuel pat repl fuel cs

/-- Python's `s.replace(pat, repl)` for a nonempty pattern (fuel
`s.length` always suffices: every step consumes at least one character). -/
def strReplace (s pat repl : String) : String :=
  String.mk (replaceAllFuel pat.data repl.data s.data.length s.data)

/-- The filled-in `GITHUB_RELEASE_URL` template
`"{GITHUB_URL}/releases/download/{version}/{artifact_string}"`. -/
def releaseUrl (env : Env) (version : String) : String :=
  env.githubUrl ++ "/releases/download/" ++ version ++ "/"
    ++ get_artifact_string env.host version

/-- `wget(url)`: attempts the fetch (always an observable network call)
and re-raises the `HTTPError` when `urlretrieve` fails.  On success the
file `Path(url).name` is written into the current directory. -/
def wget (env : Env) (url : String) : Except HTTPErr Unit × List Event :=
  match env.downloadOutcome with
  | none => (Except.ok (), [Event.download url])
  | some e => (Except.error e, [Event.download url])

/-- The diagnostic printed by `github_release_download` before
`sys.exit(-1)`. -/
def retryMessage : String := "Retrying will likely resolve the problem."

/-- `github_release_download(version)`: builds the release URL and calls
`wget`.  A raised `HTTPError` whose string contains `"404"` is swallowed
(the caller falls through to the next tier); any other `HTTPError` causes
`sys.exit(-1)`. -/
def github_release_download (env : Env) (version : String) :
    Except Fatal Unit × List Event :=
  match wget env (releaseUrl env version) with
  | (Except.ok _, evs) => (Except.ok (), evs)
  | (Except.error e, evs) =>
    if contains404 (HTTPErr.str e) then (Except.ok (), evs)
    else (Except.error ⟨-1, retryMessage⟩, evs)

/-- `prepare_cache_dir(cache_directory, version)`: if the artifact file is
absent from the candidate directory, return `None` (no exception); else
extract it into the current directory (`cwd`, the ambient working
directory under `safe_chdir`) and return
`Path(str(artifact).replace(".tar.gz", ""))` — a path formed from the
artifact's own (cache-relative) path. -/
def prepare_cache_dir (fs : String → Bool) (hst : Host)
    (cache_directory cwd version : String) : Option String × List Event :=
  let artifact := joinPath cache_directory (get_artifact_string hst version)
  if !fs artifact then (none, [])
  else (some (strReplace artifact ".tar.gz" ""), [Event.extract artifact cwd])

/-- Modelled from the spec: the directory produced by extracting the
artifact archive into the current directory is "named by stripping the
compression suffix from the artifact filename" and lives under the current
directory.  (The archive's contents are external data, not part of this
repository.) -/
def extractedDirPath (cwd artifactName : String) : String :=
  joinPath cwd (strReplace artifactName ".tar.gz" "")

/-- The four tools checked by `install_fpp_via_git`. -/
def gitTools : List String := ["git", "sh", "java", "sbt"]

/-- The first tool of `gitTools` not found by `shutil.which` (the loop
exits at the first missing tool). -/
def firstMissingTool (which : String → Bool) : Option String :=
  gitTools.find? (fun tool => !which tool)

/-- The three build steps: clone, checkout, and the repository's own
install script, exactly as assembled in the script. -/
def gitSteps (env : Env) (installation_directory version : String) :
    List (List String) :=
  [["git", "clone", env.githubUrl, env.buildDir],
   ["git", "checkout", version],
   [env.buildDir ++ "/compiler/install", installation_directory]]

/-- Run the steps in order with `subprocess.run`; a nonzero return code
aborts with `sys.exit(-1)` naming the failed step.  The failing step was
still invoked, so its event is recorded. -/
def runSteps (env : Env) : List (List String) → Except Fatal Unit × List Event
  | [] => (Except.ok (), [])
  | step :: rest =>
    if env.stepExit step == 0 then
      let (r, evs) := runSteps env rest
      (r, Event.runStep step :: evs)
    else
      (Except.error ⟨-1, "-- ERROR -- Failed to run " ++ String.intercalate " " step⟩,
        [Event.runStep step])

/-- `install_fpp_via_git(installation_directory, version)`: check the four
tools (fatal, naming the missing tool, before any step runs), then run the
three build steps; on success return the installation directory. -/
def install_fpp_via_git (env : Env) (installation_directory version : String) :
    Except Fatal String × List Event :=
  match firstMissingTool env.which with
  | some tool =>
    (Except.error ⟨-1, "-- ERROR -- " ++ tool ++ " must exist on PATH"⟩, [])
  | none =>
    match runSteps env (gitSteps env installation_directory version) with
    | (Except.ok _, evs) => (Except.ok installation_directory, evs)
    | (Except.error f, evs) => (Except.error f, evs)

/-- The tail of `install_fpp` (lines after the optional download): check
the cache/download directory with `prepare_cache_dir`; on a miss, warn and
fall back to `install_fpp_via_git(cache_directory, version)`. -/
def seek_cache_or_git (env : Env) (fsNow : String → Bool)
    (cache_directory version : String) (evs0 : List Event) :
    Except Fatal String × List Event :=
  match prepare_cache_dir fsNow env.host cache_directory env.workingDir version with
  | (some dir, evs1) => (Except.ok dir, evs0 ++ evs1)
  | (none, evs1) =>
    match install_fpp_via_git env cache_directory version with
    | (r, evs2) => (r, evs0 ++ evs1 ++ evs2)

/-- `install_fpp(working_dir)`: the cache directory is
`FPP_DOWNLOAD_CACHE` or, when unset, the working directory itself.  Under
`safe_chdir(working_dir)`: when the two coincide the release download is
attempted first (a successful `urlretrieve` writes `Path(url).name` — the
artifact filename — into the working directory), then the cache directory
is checked and the git fallback taken on a miss. -/
def install_fpp (env : Env) : Except Fatal String × List Event :=
  let version := env.toolsVersion
  let cache_directory := env.cacheEnvVar.getD env.workingDir
  if env.workingDir = cache_directory then
    match github_release_download env version with
    | (Except.error f, evs) => (Except.error f, evs)
    | (Except.ok _, evs) =>
      let fsNow : String → Bool := fun p =>
        env.fs p || (env.downloadOutcome.isNone &&
          p == joinPath env.workingDir (get_artifact_string env.host version))
      seek_cache_or_git env fsNow cache_directory version evs
  else
    seek_cache_or_git env env.fs cache_directory version []

/-- Is the event a network fetch? -/
def Event.isDownloadEvent : Event → Bool
  | Event.download _ => true
  | _ => false

/-- Is the event a subprocess invocation? -/
def Event.isRunStepEvent : Event → Bool
  | Event.runStep _ => true
  | _ => false

/-- No network fetch occurs in the event list. -/
def noDownloads (evs : List Event) : Bool :=
  evs.all fun e => !e.isDownloadEvent

/-- No subprocess invocation occurs in the event list. -/
def noRunSteps (evs : List Event) : Bool :=
  evs.all fun e => !e.isRunStepEvent

/-- The result is `sys.exit(-1)` whose diagnostic names some tool that is
really missing from the search path. -/
def failsNamingMissingTool (which : String → Bool)
    (r : Except Fatal String × List Event) : Bool :=
  match r.1 with
  | Except.error f =>
    f.code == -1 &&
      gitTools.any fun t =>
        !which t && (f.message == "-- ERROR -- " ++ t ++ " must exist on PATH")
  | Except.ok _ => false

/-! ### Exit-time cleanup (`clean_at_exit`, `clean_install_fpp`) -/

/-- `TEMPORARY_VERSION_FILE = Path(tempfile.gettempdir()) / "fprime_versions.json"`,
with the conventional POSIX temporary directory. -/
def TEMPORARY_VERSION_FILE : String := "/tmp/fprime_versions.json"

/-- `WORKING_DIR = Path(tempfile.gettempdir()) / "__FPP_WORKING_DIR__"`. -/
def WORKING_DIR : String := "/tmp/__FPP_WORKING_DIR__"

/-- The paths the module ever passes to `clean_at_exit`
(`atexit.register`): only the single module-level call
`clean_at_exit(TEMPORARY_VERSION_FILE)`.  No call registers
`WORKING_DIR`. -/
def registeredCleanupPaths : List String := [TEMPORARY_VERSION_FILE]

/-- Running the registered exit handlers on normal process exit: each
registered path is removed (modelling
`shutil.rmtree(path, ignore_errors=True)` charitably as a successful
removal). -/
def runExitCleanup (fs : String → Bool) : String → Bool :=
  fun p => fs p && !registeredCleanupPaths.contains p

/-- The filesystem effect of `clean_install_fpp`'s own body: it creates
`WORKING_DIR` (`WORKING_DIR.mkdir(exist_ok=True)`) and yields the lazy
loader; the body contains no removal of `WORKING_DIR` after the yield. -/
def clean_install_fpp_fs (fs : String → Bool) : String → Bool :=
  fun p => fs p || p == WORKING_DIR

/-! ### Concrete runs used by the witnesses and counterexamples -/

/-- A fixed host platform for the concrete runs below. -/
def linuxHost : Host := ⟨"Linux", "x86_64"⟩

/-- Environment for the C2 witness: explicit empty cache `/cache`,
working directory `/work`, no tools on the PATH.  (Env fields in order:
workingDir, cacheEnvVar, githubUrl, host, toolsVersion, fs,
downloadOutcome, which, buildDir, stepExit.) -/
def envC2 : Env :=
  ⟨"/work", some "/cache", "https://github.com/fprime-community/fpp", linuxHost,
   "v1.0.0", fun _ => false, none, fun _ => false, "/build", fun _ => 0⟩

/-- Environment for the C3 counterexample: no explicit cache, the fetch
raises HTTP 500 with a reason phrase containing "404", all tools present,
all build steps succeed. -/
def envC3a : Env :=
  ⟨"/work", none, "https://github.com/fprime-community/fpp", linuxHost, "v1.0.0",
   fun _ => false, some ⟨500, "Not Found - 404"⟩, fun _ => true, "/build", fun _ => 0⟩

/-- Environment for the C3 witness: an ordinary HTTP 500. -/
def envC3b : Env :=
  ⟨"/work", none, "https://github.com/fprime-community/fpp", linuxHost, "v1.0.0",
   fun _ => false, some ⟨500, "Internal Server Error"⟩, fun _ => true, "/build", fun _ => 0⟩

/-- Environment for the C4 counterexample: no `FPP_DOWNLOAD_CACHE`, so the
cache directory *is* the working directory, and it already contains the
artifact. -/
def envC4a : Env :=
  ⟨"/work", none, "https://github.com/fprime-community/fpp", linuxHost, "v1.0.0",
   fun p => p == "/work/native-fpp-Linux-x86_64.tar.gz", none, fun _ => true,
   "/build", fun _ => 0⟩

/-- Environment for the C4 witness: explicit cache `/cache` holding the
artifact. -/
def envC4b : Env :=
  ⟨"/work", some "/cache", "https://github.com/fprime-community/fpp", linuxHost,
   "v1.0.0", fun p => p == "/cache/native-fpp-Linux-x86_64.tar.gz", none,
   fun _ => true, "/build", fun _ => 0⟩

/-- Environment for the C8 witness: no tool resolvable at all. -/
def envC8 : Env :=
  ⟨"/work", none, "https://github.com/fprime-community/fpp", linuxHost, "v1.0.0",
   fun _ => false, none, fun _ => false, "/build", fun _ => 0⟩

/-! ## Theorems -/

/-! ### Sanity checks of the embedding on concrete tokens -/

example : get_package_version "v1.2.3" = "v1.2.3" := by decide
example : get_package_version "abcdef1234" = "v0.0.0.dev999+gabcdef12" := by decide
example : get_package_version "v1.2.3-4-gabcdef1234" = "v1.2.3.dev4+gabcdef12" := by decide
example : get_package_version "garbage" = "v0.0.0.dev999+g00000000" := by decide
example : strReplace "/c/native-fpp-Linux-x86_64.tar.gz" ".tar.gz" ""
    = "/c/native-fpp-Linux-x86_64" := by decide

/-! ### Lemmas about the matchers -/

theorem munchWhile_eq (p : Char → Bool) (a r : List Char)
    (ha : a.all p = true) (hr : headNot p r = true) :
    munchWhile p (a ++ r) = (a, r) := by
  induction a with
  | nil =>
    cases r with
    | nil => rfl
    | cons c cs =>
      simp only [headNot, Bool.not_eq_true'] at hr
      simp [munchWhile, hr]
  | cons c cs ih =>
    simp only [List.all_cons, Bool.and_eq_true] at ha
    simp [munchWhile, ha.1, ih ha.2]

theorem matchVersionPrefix_eq (a b c suffix : List Char)
    (ha1 : a ≠ []) (ha2 : a.all Char.isDigit = true)
    (hb1 : b ≠ []) (hb2 : b.all Char.isDigit = true)
    (hc1 : c ≠ []) (hc2 : c.all Char.isDigit = true)
    (hs : headNot Char.isDigit suffix = true) :
    matchVersionPrefix ('v' :: (a ++ '.' :: (b ++ '.' :: (c ++ suffix))))
      = some ('v' :: a ++ '.' :: b ++ '.' :: c, suffix) := by
  have h1 : munchDigits (a ++ '.' :: (b ++ '.' :: (c ++ suffix)))
      = (a, '.' :: (b ++ '.' :: (c ++ suffix))) :=
    munchWhile_eq _ _ _ ha2 (by simp [headNot])
  have h2 : munchDigits (b ++ '.' :: (c ++ suffix)) = (b, '.' :: (c ++ suffix)) :=
    munchWhile_eq _ _ _ hb2 (by simp [headNot])
  have h3 : munchDigits (c ++ suffix) = (c, suffix) :=
    munchWhile_eq _ _ _ hc2 hs
  simp [matchVersionPrefix, h1, h2, h3, ha1, hb1, hc1]

/-! ### Helper lemmas about the acquisition chain -/

theorem noDownloads_runSteps (env : Env) (l : List (List String)) :
    noDownloads (runSteps env l).2 = true := by
  induction l with
  | nil => rfl
  | cons s rest ih =>
    by_cases h : env.stepExit s == 0
    · rcases hr : runSteps env rest with ⟨r, evs⟩
      rw [hr] at ih
      simp [runSteps, h, hr, noDownloads, Event.isDownloadEvent] at ih ⊢
      exact ih
    · simp [runSteps, h, noDownloads, Event.isDownloadEvent]

theorem noDownloads_via_git (env : Env) (d v : String) :
    noDownloads (install_fpp_via_git env d v).2 = true := by
  unfold install_fpp_via_git
  cases hf : firstMissingTool env.which with
  | some t => rfl
  | none =>
    have hrs := noDownloads_runSteps env (gitSteps env d v)
    rcases hr : runSteps env (gitSteps env d v) with ⟨r, evs⟩
    rw [hr] at hrs
    cases r with
    | ok u => simpa [hr] using hrs
    | error f => simpa [hr] using hrs

/-- Every true HTTP 404 error has `"404"` in its textual form, so the
`retry_likely` test never treats a real 404 as fatal. -/
theorem contains404_of_code_404 (r : String) :
    contains404 (HTTPErr.str ⟨404, r⟩) = true := by
  rcases r with ⟨rl⟩
  have hs : HTTPErr.str ⟨404, ⟨rl⟩⟩ = String.mk ("HTTP Error 404: ".data ++ rl) := by
    show "HTTP Error " ++ toString (404 : Nat) ++ ": " ++ String.mk rl
        = String.mk ("HTTP Error 404: ".data ++ rl)
    rfl
  rw [hs]
  show listContains "404".data ("HTTP Error 404: ".data ++ rl) = true
  simp [listContains, List.isPrefixOf]

theorem find_missing_some (which : String → Bool) (l : List String) (t : String)
    (ht : t ∈ l) (hm : which t = false) :
    ∃ t0, l.find? (fun s => !which s) = some t0 ∧ which t0 = false ∧ t0 ∈ l := by
  induction l with
  | nil => cases ht
  | cons a as ih =>
    by_cases ha : which a = false
    · exact ⟨a, by simp [List.find?, ha], ha, List.mem_cons_self a as⟩
    · have ha' : which a = true := by
        revert ha; cases which a <;> simp
      have ht' : t ∈ as := by
        rcases List.mem_cons.mp ht with h | h
        · rw [← h, hm] at ha'; cases ha'
        · exact h
      rcases ih ht' with ⟨t0, hf, hw, hmem⟩
      exact ⟨t0, by simp [List.find?, ha', hf], hw, List.mem_cons_of_mem a hmem⟩

/-! ### Claim C1: version resolution precedence -/

/-- Claim C1, counterexample.  With no transient record and no environment
variable the script exits with status 1; no "packaged default constant"
tier exists in the code, contrary to the claim that such a default is
resolved before the exit-1 case. -/
theorem c1_counterexample_no_packaged_default :
    setup_version none none 42 = Except.error ⟨1, setupVersionErrorMsg⟩ := rfl

/-- Claim C1, amended: a transient record whose recorded `setup_ppid`
matches the parent pid overrides the environment variable; a record with a
mismatched pid is skipped and the environment variable wins; when neither
the record nor the environment variable yields a version the process exits
with status 1 (there is no packaged-default tier). -/
theorem c1_amended_precedence (ppid otherPpid : Int) (envv tfv : String)
    (hne : otherPpid ≠ ppid) :
    setup_version (some envv) (some ⟨some tfv, some ppid⟩) ppid = Except.ok tfv ∧
    setup_version (some envv) (some ⟨some tfv, some otherPpid⟩) ppid = Except.ok envv ∧
    setup_version none none ppid = Except.error ⟨1, setupVersionErrorMsg⟩ := by
  refine ⟨?_, ?_, rfl⟩
  · simp [setup_version, read_version_from_temp]
  · simp [setup_version, read_version_from_temp, hne]

/-- Witness for C1's amended theorem at concrete pids 7 and 8. -/
theorem c1_witness :
    setup_version (some "v9.9.9") (some ⟨some "v1.2.3", some 7⟩) 7 = Except.ok "v1.2.3" ∧
    setup_version (some "v9.9.9") (some ⟨some "v1.2.3", some 8⟩) 7 = Except.ok "v9.9.9" ∧
    setup_version none none 7 = Except.error ⟨1, setupVersionErrorMsg⟩ :=
  c1_amended_precedence 7 8 "v9.9.9" "v1.2.3" (by decide)

/-! ### Claim C2: explicit empty cache skips the download -/

/-- Claim C2 (confirmed): with an explicit cache directory (configured and
distinct from the working directory) that lacks the artifact, `install_fpp`
attempts no network download and is exactly the source-build path
`install_fpp_via_git`. -/
theorem c2_explicit_cache_skips_download (env : Env) (cache : String)
    (h1 : env.cacheEnvVar = some cache) (h2 : cache ≠ env.workingDir)
    (h3 : env.fs (joinPath cache (get_artifact_string env.host env.toolsVersion)) = false) :
    install_fpp env = install_fpp_via_git env cache env.toolsVersion ∧
    noDownloads (install_fpp env).2 = true := by
  have hne : ¬ (env.workingDir = cache) := fun h => h2 h.symm
  have hmain : install_fpp env = install_fpp_via_git env cache env.toolsVersion := by
    rcases hg : install_fpp_via_git env cache env.toolsVersion with ⟨r, evs⟩
    simp [install_fpp, h1, hne, seek_cache_or_git, prepare_cache_dir, h3, hg]
  refine ⟨hmain, ?_⟩
  rw [hmain]
  exact noDownloads_via_git env cache env.toolsVersion

/-- Witness for C2 at `envC2`. -/
theorem c2_witness :
    install_fpp envC2 = install_fpp_via_git envC2 "/cache" envC2.toolsVersion ∧
    noDownloads (install_fpp envC2).2 = true :=
  c2_explicit_cache_skips_download envC2 "/cache" rfl (by decide) rfl

/-! ### Claim C3: download-failure classification -/

/-- Claim C3, counterexample.  An HTTP 500 failure whose textual form
contains "404" does not terminate the process: the run falls through to
the source build (subprocess steps occur) and completes successfully —
the classification is by the substring `"404" in str(error)`, not by the
status code. -/
theorem c3_counterexample_500_not_fatal :
    envC3a.downloadOutcome = some ⟨500, "Not Found - 404"⟩ ∧
    (install_fpp envC3a).1 = Except.ok "/work" ∧
    noRunSteps (install_fpp envC3a).2 = false := by
  refine ⟨rfl, rfl, by decide⟩

/-- Claim C3, amended: with no explicit cache directory and no artifact
already in the working directory, a fetch failure whose `str(error)`
contains "404" (every true HTTP 404 does) falls through to the cache check
and then the source build, while a failure whose text lacks "404" —
e.g. an ordinary HTTP 500 — terminates immediately with `sys.exit(-1)`
after the single fetch attempt, with no source-build step. -/
theorem c3_amended_download_failure (env : Env) (e : HTTPErr)
    (h1 : env.cacheEnvVar = none)
    (h2 : env.downloadOutcome = some e)
    (h3 : env.fs (joinPath env.workingDir
        (get_artifact_string env.host env.toolsVersion)) = false) :
    if contains404 (HTTPErr.str e) = true then
      install_fpp env =
        ((install_fpp_via_git env env.workingDir env.toolsVersion).1,
          Event.download (releaseUrl env env.toolsVersion) ::
            (install_fpp_via_git env env.workingDir env.toolsVersion).2)
    else
      install_fpp env =
        (Except.error ⟨-1, retryMessage⟩,
          [Event.download (releaseUrl env env.toolsVersion)]) := by
  have hisnone : env.downloadOutcome.isNone = false := by rw [h2]; rfl
  by_cases hc : contains404 (HTTPErr.str e) = true
  · rw [if_pos hc]
    rcases hg : install_fpp_via_git env env.workingDir env.toolsVersion with ⟨r, evs⟩
    simp [install_fpp, h1, github_release_download, wget, h2, hc,
      seek_cache_or_git, prepare_cache_dir, hisnone, h3, hg]
  · rw [if_neg hc]
    simp only [Bool.not_eq_true] at hc
    simp [install_fpp, h1, github_release_download, wget, h2, hc]

/-- Witness for C3's amended theorem at `envC3b`. -/
theorem c3_witness :
    if contains404 (HTTPErr.str ⟨500, "Internal Server Error"⟩) = true then
      install_fpp envC3b =
        ((install_fpp_via_git envC3b envC3b.workingDir envC3b.toolsVersion).1,
          Event.download (releaseUrl envC3b envC3b.toolsVersion) ::
            (install_fpp_via_git envC3b envC3b.workingDir envC3b.toolsVersion).2)
    else
      install_fpp envC3b =
        (Except.error ⟨-1, retryMessage⟩,
          [Event.download (releaseUrl envC3b envC3b.toolsVersion)]) :=
  c3_amended_download_failure envC3b ⟨500, "Internal Server Error"⟩ rfl rfl rfl

/-! ### Claim C4: cached artifact means no network and no subprocess -/

/-- Claim C4, counterexample.  When the configured cache directory is the
(default) working directory and it already contains the artifact, the code
still performs the release download first — installation does not complete
free of network calls. -/
theorem c4_counterexample_default_cache_still_downloads :
    envC4a.fs (joinPath (envC4a.cacheEnvVar.getD envC4a.workingDir)
        (get_artifact_string envC4a.host envC4a.toolsVersion)) = true ∧
    noDownloads (install_fpp envC4a).2 = false := by
  refine ⟨by decide, by decide⟩

/-- Claim C4, amended: when an explicit cache directory distinct from the
working directory contains the artifact, installation completes (returning
the suffix-stripped artifact path) with no network call and no subprocess
invocation — the only external action is the tar extraction. -/
theorem c4_amended_explicit_cache_hit_offline (env : Env) (cache : String)
    (h1 : env.cacheEnvVar = some cache) (h2 : cache ≠ env.workingDir)
    (h3 : env.fs (joinPath cache (get_artifact_string env.host env.toolsVersion)) = true) :
    install_fpp env =
      (Except.ok (strReplace
          (joinPath cache (get_artifact_string env.host env.toolsVersion)) ".tar.gz" ""),
        [Event.extract (joinPath cache (get_artifact_string env.host env.toolsVersion))
          env.workingDir]) ∧
    noDownloads (install_fpp env).2 = true ∧
    noRunSteps (install_fpp env).2 = true := by
  have hne : ¬ (env.workingDir = cache) := fun h => h2 h.symm
  have hmain : install_fpp env =
      (Except.ok (strReplace
          (joinPath cache (get_artifact_string env.host env.toolsVersion)) ".tar.gz" ""),
        [Event.extract (joinPath cache (get_artifact_string env.host env.toolsVersion))
          env.workingDir]) := by
    simp [install_fpp, h1, hne, seek_cache_or_git, prepare_cache_dir, h3]
  refine ⟨hmain, ?_, ?_⟩ <;> rw [hmain] <;> rfl

/-- Witness for C4's amended theorem at `envC4b`. -/
theorem c4_witness :
    install_fpp envC4b =
      (Except.ok (strReplace
          (joinPath "/cache" (get_artifact_string envC4b.host envC4b.toolsVersion))
          ".tar.gz" ""),
        [Event.extract (joinPath "/cache" (get_artifact_string envC4b.host envC4b.toolsVersion))
          envC4b.workingDir]) ∧
    noDownloads (install_fpp envC4b).2 = true ∧
    noRunSteps (install_fpp envC4b).2 = true :=
  c4_amended_explicit_cache_hit_offline envC4b "/cache" rfl (by decide) (by decide)

/-! ### Claim C5: composite-token normalization -/

/-- Claim C5, counterexample.  On the composite token `v1.2.3-4-gabcdef1234`
the code yields `v1.2.3.dev4+gabcdef12` — the matched base version with its
leading `v` — not the bare `1.2.3.dev4+gabcdef12` the claim describes. -/
theorem c5_counterexample_keeps_leading_v :
    get_package_version "v1.2.3-4-gabcdef1234" = "v1.2.3.dev4+gabcdef12" ∧
    get_package_version "v1.2.3-4-gabcdef1234" ≠ "1.2.3.dev4+gabcdef12" := by
  constructor
  · decide
  · decide

/-- Claim C5, amended: for every composite token `vX.Y.Z-N-gHASH`
(nonempty digit runs `X`, `Y`, `Z`, `N`; `HASH` at least 8 hex characters),
`get_package_version` yields `vX.Y.Z.devN+g<HASH[:8]>`, embedding the
matched base version tag (with its leading `v`), the commit distance `N`
and the first 8 characters of the hash. -/
theorem c5_amended_composite (a b c n hx : List Char)
    (ha1 : a ≠ []) (ha2 : a.all Char.isDigit = true)
    (hb1 : b ≠ []) (hb2 : b.all Char.isDigit = true)
    (hc1 : c ≠ []) (hc2 : c.all Char.isDigit = true)
    (hn1 : n ≠ []) (hn2 : n.all Char.isDigit = true)
    (hh1 : 8 ≤ hx.length) (hh2 : hx.all isHexChar = true) :
    get_package_version
        (String.mk ('v' :: (a ++ '.' :: (b ++ '.' :: (c ++ '-' :: (n ++ '-' :: 'g' :: hx))))))
      = String.mk ('v' :: a ++ '.' :: b ++ '.' :: c) ++ ".dev" ++ String.mk n
          ++ "+g" ++ String.mk (hx.take 8) := by
  have hpre := matchVersionPrefix_eq a b c ('-' :: (n ++ '-' :: 'g' :: hx))
      ha1 ha2 hb1 hb2 hc1 hc2 (by simp [headNot])
  have hexact : matchesExactVersion
      ('v' :: (a ++ '.' :: (b ++ '.' :: (c ++ '-' :: (n ++ '-' :: 'g' :: hx))))) = false := by
    simp [matchesExactVersion, hpre]
  have hhash : hashPrefixMatches
      ('v' :: (a ++ '.' :: (b ++ '.' :: (c ++ '-' :: (n ++ '-' :: 'g' :: hx))))) = false := by
    have ht : (('v' :: (a ++ '.' :: (b ++ '.' :: (c ++ '-' :: (n ++ '-' :: 'g' :: hx))))).take 8)
        = 'v' :: ((a ++ '.' :: (b ++ '.' :: (c ++ '-' :: (n ++ '-' :: 'g' :: hx)))).take 7) := rfl
    have hv : isHexChar 'v' = false := by decide
    unfold hashPrefixMatches
    rw [ht, List.all_cons, hv, Bool.false_and, Bool.and_false]
  have hdigits : munchDigits (n ++ '-' :: 'g' :: hx) = (n, '-' :: 'g' :: hx) :=
    munchWhile_eq _ _ _ hn2 (by simp [headNot])
  have hhex : munchHex hx = (hx, []) := by
    have := munchWhile_eq isHexChar hx [] hh2 (by simp [headNot])
    simpa [munchHex] using this
  have hlen : ¬ (hx.take 40).length < 8 := by
    simp only [List.length_take]
    omega
  have hfull : matchFullVersion
      ('v' :: (a ++ '.' :: (b ++ '.' :: (c ++ '-' :: (n ++ '-' :: 'g' :: hx)))))
      = some ('v' :: a ++ '.' :: b ++ '.' :: c, n, hx.take 40) := by
    simp [matchFullVersion, hpre, hdigits, hn1, hhex, hlen]
    omega
  have hmin : (8 : Nat) ⊓ 40 = 8 := by decide
  have htake : (hx.take 40).take 8 = hx.take 8 := by
    rw [List.take_take, hmin]
  simp [get_package_version, hexact, hhash, hfull, htake, formatPackageVersion]

/-- Witness for C5's amended theorem at `v1.2.3-4-gabcdef1234`. -/
theorem c5_witness :
    get_package_version "v1.2.3-4-gabcdef1234"
      = String.mk ('v' :: ['1'] ++ '.' :: ['2'] ++ '.' :: ['3']) ++ ".dev" ++ String.mk ['4']
          ++ "+g" ++ String.mk ("abcdef1234".data.take 8) :=
  c5_amended_composite ['1'] ['2'] ['3'] ['4'] "abcdef1234".data
    (by decide) (by decide) (by decide) (by decide) (by decide) (by decide)
    (by decide) (by decide) (by decide) (by decide)

/-! ### Claim C6: hash and exact-tag normalization -/

/-- Claim C6 (confirmed): every bare token of 8–40 hex characters is
normalized to `v0.0.0.dev999+g` followed by its first 8 characters, and
every exact tag `vMAJOR.MINOR.PATCH` is returned unchanged. -/
theorem c6_hash_and_exact_normalization (s a b c : List Char)
    (hs8 : 8 ≤ s.length) (hs40 : s.length ≤ 40) (hsh : s.all isHexChar = true)
    (ha1 : a ≠ []) (ha2 : a.all Char.isDigit = true)
    (hb1 : b ≠ []) (hb2 : b.all Char.isDigit = true)
    (hc1 : c ≠ []) (hc2 : c.all Char.isDigit = true) :
    get_package_version (String.mk s) = "v0.0.0.dev999+g" ++ String.mk (s.take 8) ∧
    get_package_version (String.mk ('v' :: (a ++ '.' :: (b ++ '.' :: c))))
      = String.mk ('v' :: (a ++ '.' :: (b ++ '.' :: c))) := by
  constructor
  · -- the bare-hash branch
    obtain ⟨c0, s', rfl⟩ : ∃ c0 s', s = c0 :: s' := by
      cases s with
      | nil => simp at hs8
      | cons c0 s' => exact ⟨c0, s', rfl⟩
    have hc0hex : isHexChar c0 = true := by
      simp only [List.all_cons, Bool.and_eq_true] at hsh
      exact hsh.1
    have hc0 : c0 ≠ 'v' := by
      intro h
      rw [h] at hc0hex
      simp [isHexChar] at hc0hex
    have hexact : matchesExactVersion (c0 :: s') = false := by
      simp [matchesExactVersion, matchVersionPrefix, hc0]
    have hhash : hashPrefixMatches (c0 :: s') = true := by
      have hall : ((c0 :: s').take 8).all isHexChar = true :=
        List.all_eq_true.mpr fun x hx =>
          List.all_eq_true.mp hsh x (List.take_subset _ _ hx)
      unfold hashPrefixMatches
      rw [hall, Bool.and_true]
      exact decide_eq_true hs8
    have : get_package_version (String.mk (c0 :: s'))
        = formatPackageVersion "v0.0.0" "999" (String.mk ((c0 :: s').take 8)) := by
      simp [get_package_version, hexact, hhash]
    rw [this]
    rfl
  · -- the exact-tag branch
    have hpre := matchVersionPrefix_eq a b c [] ha1 ha2 hb1 hb2 hc1 hc2 (by simp [headNot])
    rw [List.append_nil] at hpre
    have hexact : matchesExactVersion ('v' :: (a ++ '.' :: (b ++ '.' :: c))) = true := by
      simp [matchesExactVersion, hpre]
    simp [get_package_version, hexact]

/-- Witness for C6 at the hash `abcdef12` and the tag `v1.0.0`. -/
theorem c6_witness :
    get_package_version "abcdef12" = "v0.0.0.dev999+gabcdef12" ∧
    get_package_version "v1.0.0" = "v1.0.0" := by
  have h := c6_hash_and_exact_normalization "abcdef12".data ['1'] ['0'] ['0']
    (by decide) (by decide) (by decide) (by decide) (by decide) (by decide)
    (by decide) (by decide) (by decide)
  exact ⟨h.1.trans (by decide), h.2⟩

/-! ### Claim C7: exit-time cleanup -/

/-- Claim C7: `WORKING_DIR` is never registered for exit-time cleanup, so
after a run that created it (via `clean_install_fpp`) and after all
registered exit handlers have run, the working directory is still present
on the filesystem — contradicting both the claim and the function's own
docstring "cleaning when finished". -/
theorem c7_working_dir_survives_cleanup :
    WORKING_DIR ∉ registeredCleanupPaths ∧
    runExitCleanup (clean_install_fpp_fs (fun _ => false)) WORKING_DIR = true := by
  refine ⟨by decide, by decide⟩

/-! ### Claim C8: missing tool fails fast -/

/-- Claim C8 (confirmed): whenever one of the four required tools (`git`,
`sh`, `java`, `sbt`) is not resolvable on the search path,
`install_fpp_via_git` exits with `-1` and a diagnostic naming a missing
tool, and performs no subprocess step at all — in particular no clone. -/
theorem c8_missing_tool_fails_before_clone (env : Env) (d v t : String)
    (ht : t ∈ gitTools) (hm : env.which t = false) :
    failsNamingMissingTool env.which (install_fpp_via_git env d v) = true ∧
    (install_fpp_via_git env d v).2 = [] := by
  rcases find_missing_some env.which gitTools t ht hm with ⟨t0, hf, hw, hmem⟩
  have hgit : install_fpp_via_git env d v =
      (Except.error ⟨-1, "-- ERROR -- " ++ t0 ++ " must exist on PATH"⟩, []) := by
    unfold install_fpp_via_git firstMissingTool
    rw [hf]
  constructor
  · rw [hgit]
    have hany : gitTools.any (fun tl => !env.which tl &&
        (("-- ERROR -- " ++ t0 ++ " must exist on PATH") ==
          ("-- ERROR -- " ++ tl ++ " must exist on PATH"))) = true :=
      List.any_eq_true.mpr ⟨t0, hmem, by simp [hw]⟩
    simp [failsNamingMissingTool, hany]
  · rw [hgit]

/-- Witness for C8 at `envC8` (applied for the missing tool `sbt`). -/
theorem c8_witness :
    failsNamingMissingTool envC8.which (install_fpp_via_git envC8 "/inst" "v1.0.0") = true ∧
    (install_fpp_via_git envC8 "/inst" "v1.0.0").2 = [] :=
  c8_missing_tool_fails_before_clone envC8 "/inst" "v1.0.0" "sbt" (by decide) rfl

/-! ### Claim C9: cache preparation -/

/-- Claim C9, counterexample.  With candidate directory `/cache` and
current directory `/work`, `prepare_cache_dir` extracts into `/work` but
returns `/cache/native-fpp-Linux-x86_64` — not the path of the extracted
directory `/work/native-fpp-Linux-x86_64`. -/
theorem c9_counterexample_return_vs_extraction_dir :
    prepare_cache_dir (fun p => p == "/cache/native-fpp-Linux-x86_64.tar.gz")
        linuxHost "/cache" "/work" "v1.0.0"
      = (some "/cache/native-fpp-Linux-x86_64",
         [Event.extract "/cache/native-fpp-Linux-x86_64.tar.gz" "/work"]) ∧
    extractedDirPath "/work" (get_artifact_string linuxHost "v1.0.0")
      = "/work/native-fpp-Linux-x86_64" ∧
    ("/cache/native-fpp-Linux-x86_64" : String) ≠ "/work/native-fpp-Linux-x86_64" := by
  refine ⟨rfl, rfl, by decide⟩

/-- Claim C9, amended: if the artifact file exists in the candidate
directory, `prepare_cache_dir` extracts it into the current directory and
returns the artifact path with the `.tar.gz` suffix stripped (the extracted
directory's path only when the candidate directory is the current
directory); if no such file exists, it returns `none` and performs nothing
— no exception. -/
theorem c9_amended_prepare_cache_dir (fs : String → Bool) (hst : Host)
    (cache_directory cwd version : String) :
    prepare_cache_dir fs hst cache_directory cwd version =
      if fs (joinPath cache_directory (get_artifact_string hst version)) = true then
        (some (strReplace (joinPath cache_directory (get_artifact_string hst version))
            ".tar.gz" ""),
          [Event.extract (joinPath cache_directory (get_artifact_string hst version)) cwd])
      else (none, []) := by
  cases hb : fs (joinPath cache_directory (get_artifact_string hst version)) with
  | false => simp [prepare_cache_dir, hb]
  | true => simp [prepare_cache_dir, hb]

/-! ### Claim C10: artifact name is version-independent -/

/-- Claim C10 (confirmed): on one host platform, `get_artifact_string`
gives the same filename for any two versions — the version argument is
ignored, so a cached artifact built for a different version is
indistinguishable from one for the resolved version. -/
theorem c10_artifact_independent_of_version (hst : Host) (v1 v2 : String) :
    get_artifact_string hst v1 = get_artifact_string hst v2 := rfl

end FppInstall
